import Mathlib

/-!
Verification of the Veritas bias-scoring orchestration engine.

This file gives a shallow embedding, in Lean 4, of the core of
`src/backend/src/veritas_news/ai/bias_analysis.py`,
`src/backend/src/veritas_news/ai/scoring.py` and
`src/backend/src/veritas_news/models/bias_rating.py`, and proves
properties of the embedded definitions.

Modelling conventions:
* Python floats are modelled as rationals (`ℚ`); every quantity the
  claims mention is exactly representable and the float computations
  involved agree with the rational ones on those values.
* Python `dict`s are modelled as association lists (`List (String × _)`)
  where lookup returns the first matching key, and `dict.get(k, 0)`
  becomes `(lookup …).getD 0`.
* Python strings are modelled as `String` / `List Char`; the regular
  expressions used by the parsers are implemented directly as scanning
  functions over `List Char` (ASCII semantics, which covers every input
  the code is specified on).
* Fallible functions (`raise ValueError`) return `Option`/`Except`.
-/

set_option maxHeartbeats 1000000

namespace Veritas

/-! ## Association-list primitives (Python `dict` access) -/

/-- First-match lookup in an association list (Python `dict` access,
where an entry earlier in the list shadows later ones). -/
def lookupVar (m : List (String × Int)) (v : String) : Option Int :=
  match m with
  | [] => none
  | (n, x) :: t => if n = v then some x else lookupVar t v

/-- Python `variable_values.get(var, 0)`. -/
def getVar (m : List (String × Int)) (v : String) : Int :=
  (lookupVar m v).getD 0

/-- Python `sum(variable_values.get(var, 0) for var in vars)`. -/
def sumVars (m : List (String × Int)) (vs : List String) : Int :=
  match vs with
  | [] => 0
  | v :: rest => getVar m v + sumVars m rest

/-- Python dict assignment `m[v] = x`, modelled by shadowing. -/
def setVar (m : List (String × Int)) (v : String) (x : Int) :
    List (String × Int) :=
  (v, x) :: m

/-! ## scoring.py -/

/-- Function `score_bias` from `scoring.py`: `return raw_scores.copy()` — a
pass-through returning an equal map. -/
def score_bias (raw_scores : List (String × ℚ)) : List (String × ℚ) :=
  raw_scores

/-- The `left_vars` list hard-coded in `score_secm`. -/
def left_vars : List String :=
  [ "secm_ideol_l1_systemic_naming"
  , "secm_ideol_l2_power_gap_lexicon"
  , "secm_ideol_l3_elite_culpability"
  , "secm_ideol_l4_resource_redistribution"
  , "secm_ideol_l5_change_as_justice"
  , "secm_ideol_l6_care_harm" ]

/-- The `right_vars` list hard-coded in `score_secm`. -/
def right_vars : List String :=
  [ "secm_ideol_r1_agentic_culpability"
  , "secm_ideol_r2_order_lexicon"
  , "secm_ideol_r3_institutional_defense"
  , "secm_ideol_r4_meritocratic_defense"
  , "secm_ideol_r5_change_as_threat"
  , "secm_ideol_r6_sanctity_degradation" ]

/-- The `high_vars` list hard-coded in `score_secm`. -/
def high_vars : List String :=
  [ "secm_epist_h1_primary_documentation"
  , "secm_epist_h2_adversarial_sourcing"
  , "secm_epist_h3_specific_attribution"
  , "secm_epist_h4_data_contextualization"
  , "secm_epist_h5_methodological_transparency" ]

/-- The `low_vars` list hard-coded in `score_secm`. -/
def low_vars : List String :=
  [ "secm_epist_e1_emotive_adjectives"
  , "secm_epist_e2_labeling_othering"
  , "secm_epist_e3_causal_certainty"
  , "secm_epist_e4_imperative_direct_address"
  , "secm_epist_e5_motivated_reasoning" ]

/-- Result dictionary of `score_secm`. -/
structure SecmScores where
  ideological_score : ℚ
  epistemic_score : ℚ
  deriving DecidableEq

/-- Function `score_secm` from `scoring.py`: sums the four hard-coded marker
groups (absent markers contribute 0 via `.get(var, 0)`) and returns
`(R - L) / (R + L + k)` and `(H - E) / (H + E + k)`. -/
def score_secm (variable_values : List (String × Int)) (k : ℚ) :
    SecmScores :=
  let L : Int := sumVars variable_values left_vars
  let R : Int := sumVars variable_values right_vars
  let H : Int := sumVars variable_values high_vars
  let E : Int := sumVars variable_values low_vars
  { ideological_score := ((R : ℚ) - (L : ℚ)) / ((R : ℚ) + (L : ℚ) + k)
  , epistemic_score := ((H : ℚ) - (E : ℚ)) / ((H : ℚ) + (E : ℚ) + k) }

/-! ## bias_rating.py: linear rescaling, and the overall score of
`analyze_article` (routes_bias_ratings.py). -/

/-- Function `normalize_score_to_range` from `models/bias_rating.py`. -/
def normalize_score_to_range (score : ℚ) (from_min : ℚ := 1)
    (from_max : ℚ := 7) (to_min : ℚ := -1) (to_max : ℚ := 1) : ℚ :=
  (score - from_min) / (from_max - from_min) * (to_max - to_min) + to_min

/-- The overall-score computation of `analyze_article`
(`routes_bias_ratings.py` lines 125–130): filter the four dimension
slots for present values, average, and rescale from 1..7 to -1..1;
`none` when every slot is absent. -/
def overall_bias_score (slots : List (Option ℚ)) : Option ℚ :=
  let valid_scores := slots.filterMap id
  if valid_scores.isEmpty then none
  else
    some (normalize_score_to_range
      (valid_scores.sum / (valid_scores.length : ℚ)) 1 7 (-1) 1)

/-! ## Helper lemmas about marker sums -/

theorem sumVars_nil (m : List (String × Int)) : sumVars m [] = 0 := rfl

theorem sumVars_cons (m : List (String × Int)) (v : String)
    (vs : List String) : sumVars m (v :: vs) = getVar m v + sumVars m vs :=
  rfl

theorem getVar_setVar_self (m : List (String × Int)) (v : String)
    (x : Int) : getVar (setVar m v x) v = x := by
  simp [getVar, setVar, lookupVar]

theorem getVar_setVar_ne {v w : String} (m : List (String × Int))
    (x : Int) (hw : v ≠ w) : getVar (setVar m v x) w = getVar m w := by
  simp [getVar, setVar, lookupVar, hw]

theorem lookupVar_mem {m : List (String × Int)} {v : String} {x : Int}
    (h : lookupVar m v = some x) : (v, x) ∈ m := by
  induction m with
  | nil => simp [lookupVar] at h
  | cons p t ih =>
    obtain ⟨n, y⟩ := p
    by_cases hn : n = v
    · subst hn
      simp [lookupVar] at h
      simp [h]
    · simp [lookupVar, hn] at h
      exact List.mem_cons_of_mem _ (ih h)

/-- If every value stored in the map is 0 or 1, every individual marker
read is 0 or 1. -/
theorem getVar_binary {m : List (String × Int)}
    (hm : ∀ p ∈ m, p.2 = 0 ∨ p.2 = 1) (v : String) :
    getVar m v = 0 ∨ getVar m v = 1 := by
  unfold getVar
  cases h : lookupVar m v with
  | none => simp
  | some x =>
    have := hm _ (lookupVar_mem h)
    simpa using this

/-- Marker-group sums are nonnegative on 0/1-valued maps. -/
theorem sumVars_nonneg {m : List (String × Int)}
    (hm : ∀ p ∈ m, p.2 = 0 ∨ p.2 = 1) (vs : List String) :
    0 ≤ sumVars m vs := by
  induction vs with
  | nil => simp [sumVars]
  | cons v rest ih =>
    have h := getVar_binary hm v
    unfold sumVars
    rcases h with h | h <;> omega

/-- A marker absent from the map contributes 0 to its group sum. -/
theorem sumVars_absent {m : List (String × Int)} {v : String}
    (h : lookupVar m v = none) (vs : List String) :
    sumVars m (v :: vs) = sumVars m vs := by
  rw [sumVars_cons]
  unfold getVar
  rw [h]
  simp

/-- Shadowing a key that does not occur in the group leaves the group
sum unchanged. -/
theorem sumVars_setVar_not_mem {m : List (String × Int)} {v : String}
    {x : Int} {vs : List String} (h : v ∉ vs) :
    sumVars (setVar m v x) vs = sumVars m vs := by
  induction vs with
  | nil => simp [sumVars]
  | cons w rest ih =>
    have hw : v ≠ w := fun hvw => h (hvw ▸ List.mem_cons_self w rest)
    have hrest : v ∉ rest := fun hr => h (List.mem_cons_of_mem _ hr)
    rw [sumVars_cons, sumVars_cons, ih hrest, getVar_setVar_ne m x hw]

/-- Shadowing a key occurring once in a duplicate-free group replaces
that key's contribution. -/
theorem sumVars_setVar_mem {m : List (String × Int)} {v : String}
    {x : Int} {vs : List String} (hnd : vs.Nodup) (h : v ∈ vs) :
    sumVars (setVar m v x) vs = sumVars m vs - getVar m v + x := by
  induction vs with
  | nil => simp at h
  | cons w rest ih =>
    rcases List.mem_cons.mp h with hw | hr
    · subst hw
      have hrest : v ∉ rest := (List.nodup_cons.mp hnd).1
      rw [sumVars_cons, sumVars_cons, sumVars_setVar_not_mem hrest,
        getVar_setVar_self]
      ring
    · have hw : v ≠ w := by
        intro hvw
        exact (List.nodup_cons.mp hnd).1 (hvw ▸ hr)
      rw [sumVars_cons, sumVars_cons, ih (List.nodup_cons.mp hnd).2 hr,
        getVar_setVar_ne m x hw]
      ring

/-! ## String scanning primitives -/

/-- Python substring test `sub in hay` (true at any position, and an
empty pattern is contained everywhere). -/
def containsSub (hay pat : List Char) : Bool :=
  match hay with
  | [] => pat.isPrefixOf ([] : List Char)
  | c :: t => pat.isPrefixOf (c :: t) || containsSub t pat

/-- ASCII lowercasing of a character list (Python `str.lower()`). -/
def lowerChars (l : List Char) : List Char := l.map Char.toLower

/-- Python `sub in s` on `String`s. -/
def strContains (s sub : String) : Bool := containsSub s.toList sub.toList

/-- Python `sub in s.lower()` for a lowercase pattern `sub`. -/
def strContainsCI (s sub : String) : Bool :=
  containsSub (lowerChars s.toList) sub.toList

/-! ## Unit caller retry loop (bias_analysis.py) -/

/-- The 503-overload classification of `call_llm_for_dimension`:
`"503" in str(e) and ("overloaded" in str(e).lower() or "unavailable"
in str(e).lower())`. -/
def is_503_overload (e : String) : Bool :=
  strContains e "503" &&
    (strContainsCI e "overloaded" || strContainsCI e "unavailable")

/-- The inter-attempt delay chosen by `call_llm_for_dimension` after a
failed attempt: a fixed configurable delay (`GEMINI_503_RETRY_DELAY`,
default 5) for 503-overload errors, else `retry_delay * (attempt + 1)`. -/
def dimension_attempt_delay (retry_delay overload_delay : ℚ)
    (e : String) (attempt : ℕ) : ℚ :=
  if is_503_overload e then overload_delay
  else retry_delay * ((attempt : ℚ) + 1)

/-- The inter-attempt delay chosen by `call_llm_for_secm_variable`
after a failed attempt: always `retry_delay * (attempt + 1)`, with no
classification of the error text. -/
def secm_attempt_delay (retry_delay : ℚ) (_e : String) (attempt : ℕ) :
    ℚ :=
  retry_delay * ((attempt : ℚ) + 1)

/-- The shared retry loop shape of both unit callers
(`for attempt in range(max_retries): try ... except: sleep(delay)`).
`out i` is the outcome of attempt `i` (the transport call followed by
parsing); the function returns the final outcome together with the
list of sleeps performed, in order. A delay is inserted only when the
attempt failed and attempts remain. -/
def retryLoop {α : Type} (delayOf : String → ℕ → ℚ)
    (out : ℕ → Except String α) :
    ℕ → ℕ → Except String α × List ℚ
  | _, 0 => (Except.error "failed with no error details", [])
  | attempt, n + 1 =>
    match out attempt with
    | Except.ok v => (Except.ok v, [])
    | Except.error e =>
      if n = 0 then (Except.error e, [])
      else
        let r := retryLoop delayOf out (attempt + 1) n
        (r.1, delayOf e attempt :: r.2)

/-- Function `call_llm_for_dimension` viewed through the outcomes of its
attempts: retry with the two-tier delay policy, defaults
`max_retries = 5`, `retry_delay = 1`, overload delay 5. -/
def call_llm_for_dimension (out : ℕ → Except String ℚ)
    (max_retries : ℕ := 5) (retry_delay : ℚ := 1)
    (overload_delay : ℚ := 5) : Except String ℚ × List ℚ :=
  retryLoop (dimension_attempt_delay retry_delay overload_delay) out 0
    max_retries

/-- Function `call_llm_for_secm_variable` viewed through the outcomes of its
attempts: retry with plain linear backoff, defaults `max_retries = 3`,
`retry_delay = 1`. -/
def call_llm_for_secm_variable (out : ℕ → Except String (ℕ × String))
    (max_retries : ℕ := 3) (retry_delay : ℚ := 1) :
    Except String (ℕ × String) × List ℚ :=
  retryLoop (secm_attempt_delay retry_delay) out 0 max_retries

/-! ## Fan-in aggregation (rate_bias_parallel / rate_secm_parallel) -/

/-- The fan-in partition loop shared by `rate_bias_parallel`
(`label = "Dimension"`) and `rate_secm_parallel` (`label = "Variable"`):
successes keep their name and value in order; each failure appends
`f"{label} '{name}': {msg}"` to the error list, in order. -/
def collectResults {α : Type} (label : String) :
    List (String × Except String α) → List (String × α) × List String
  | [] => ([], [])
  | (name, Except.ok v) :: rest =>
    let r := collectResults label rest
    ((name, v) :: r.1, r.2)
  | (name, Except.error msg) :: rest =>
    let r := collectResults label rest
    (r.1, (label ++ " '" ++ name ++ "': " ++ msg) :: r.2)

/-- The aggregation policy of both orchestrators: if no unit succeeded,
raise `HTTPException(502, fail_prefix + "; ".join(errors))`; otherwise
return the (possibly partial) success map. The error side carries the
HTTP status together with the detail message. -/
def aggregateParallel {α : Type} (label fail_prefix : String)
    (results : List (String × Except String α)) :
    Except (ℕ × String) (List (String × α)) :=
  let c := collectResults label results
  if c.1.isEmpty then
    Except.error (502, fail_prefix ++ String.intercalate "; " c.2)
  else Except.ok c.1

/-- Function `rate_bias_parallel` from `bias_analysis.py`, as a function of each
dimension's final outcome (the result of `call_llm_for_dimension`). -/
def rate_bias_parallel (results : List (String × Except String ℚ)) :
    Except (ℕ × String) (List (String × ℚ)) :=
  aggregateParallel "Dimension" "Bias rating failed: " results

/-- Function `rate_secm_parallel` from `bias_analysis.py`, as a function of each
variable's final outcome (the result of `call_llm_for_secm_variable`). -/
def rate_secm_parallel
    (results : List (String × Except String (ℕ × String))) :
    Except (ℕ × String) (List (String × (ℕ × String))) :=
  aggregateParallel "Variable" "SECM rating failed: " results

/-! ## Response parser: parse_llm_score (bias_analysis.py)

The Python code uses `re.search` with the patterns `\b(\d+\.\d+)\b` and
`\b(\d+)\b`.  These are implemented below as left-to-right scans: a
match is attempted at each start position; at a given position the
`\d+` groups are maximal-munch (backtracking cannot produce any other
match for these patterns, since shrinking a digit run puts a digit on
both sides of the required word boundary or in place of the literal
dot). -/

/-- Python regex word character (`\w`, ASCII): letters, digits, `_`. -/
def isWordChar (c : Char) : Bool := c.isAlphanum || c == '_'

/-- Python `str.strip()` on a character list. -/
def trimList (l : List Char) : List Char :=
  ((l.dropWhile Char.isWhitespace).reverse.dropWhile
    Char.isWhitespace).reverse

/-- Boundary `\b` immediately before a word character: the preceding character,
if any, is not a word character. -/
def boundaryBefore (prev : Option Char) : Bool :=
  match prev with
  | none => true
  | some c => !isWordChar c

/-- Boundary `\b` immediately after a word character: the following character,
if any, is not a word character. -/
def boundaryAfter (l : List Char) : Bool :=
  match l with
  | [] => true
  | c :: _ => !isWordChar c

/-- Numeric value of a digit run. -/
def digitsToNat (l : List Char) : ℕ :=
  l.foldl (fun acc c => acc * 10 + (c.toNat - '0'.toNat)) 0

/-- Exact value of the decimal literal `d1.d2`. -/
def decimalValue (d1 d2 : List Char) : ℚ :=
  (digitsToNat d1 : ℚ) + (digitsToNat d2 : ℚ) / ((10 : ℚ) ^ d2.length)

/-- Match `\b\d+\.\d+\b` anchored at the current position (`prev` is
the character just before it), returning the two digit groups. -/
def matchDecimalAt (prev : Option Char) (l : List Char) :
    Option (List Char × List Char) :=
  if boundaryBefore prev then
    let d1 := l.takeWhile Char.isDigit
    if d1.isEmpty then none
    else
      match l.dropWhile Char.isDigit with
      | '.' :: rest2 =>
        let d2 := rest2.takeWhile Char.isDigit
        if d2.isEmpty then none
        else if boundaryAfter (rest2.dropWhile Char.isDigit) then
          some (d1, d2)
        else none
      | _ => none
  else none

/-- Match `\b\d+\b` anchored at the current position, returning the
digit group. -/
def matchIntegerAt (prev : Option Char) (l : List Char) :
    Option (List Char) :=
  if boundaryBefore prev then
    let d1 := l.takeWhile Char.isDigit
    if d1.isEmpty then none
    else if boundaryAfter (l.dropWhile Char.isDigit) then some d1
    else none
  else none

/-- Search `re.search(r"\b(\d+\.\d+)\b", ...)`: leftmost match. -/
def findDecimalAux : Option Char → List Char → Option (List Char × List Char)
  | _, [] => none
  | prev, c :: t =>
    match matchDecimalAt prev (c :: t) with
    | some g => some g
    | none => findDecimalAux (some c) t

def findDecimal (l : List Char) : Option (List Char × List Char) :=
  findDecimalAux none l

/-- Search `re.search(r"\b(\d+)\b", ...)`: leftmost match. -/
def findIntegerAux : Option Char → List Char → Option (List Char)
  | _, [] => none
  | prev, c :: t =>
    match matchIntegerAt prev (c :: t) with
    | some g => some g
    | none => findIntegerAux (some c) t

def findInteger (l : List Char) : Option (List Char) :=
  findIntegerAux none l

/-- The `written_numbers` dictionary of `parse_llm_score`, in its
insertion (= iteration) order. -/
def written_numbers : List (List Char × ℕ) :=
  [ ("one".toList, 1), ("two".toList, 2), ("three".toList, 3)
  , ("four".toList, 4), ("five".toList, 5), ("six".toList, 6)
  , ("seven".toList, 7) ]

/-- Loop `for word, num in written_numbers.items(): if word in text_lower`. -/
def findWritten (textLower : List Char) :
    List (List Char × ℕ) → Option ℕ
  | [] => none
  | (w, n) :: rest =>
    if containsSub textLower w then some n
    else findWritten textLower rest

/-- Function `parse_llm_score` from `bias_analysis.py`: trim; fail on empty;
first decimal-number regex, then integer regex, clamping the hit to
`[1, 7]` via `max(1.0, min(7.0, score))`; then written numbers
one..seven on the lowercased text; otherwise fail (`none` models
`raise ValueError`). -/
def parse_llm_score (response_text : String) : Option ℚ :=
  let text := trimList response_text.toList
  if text.isEmpty then none
  else
    match findDecimal text with
    | some (d1, d2) => some (max 1 (min 7 (decimalValue d1 d2)))
    | none =>
      match findInteger text with
      | some d1 => some (max 1 (min 7 ((digitsToNat d1 : ℚ))))
      | none =>
        (findWritten (lowerChars text) written_numbers).map
          (fun n => (n : ℚ))

/-! ## Response parser: parse_secm_response (bias_analysis.py)

The Python code uses `re.search(r"<tag>(.*?)</tag>", text,
re.DOTALL | re.IGNORECASE)`: the match starts at the leftmost opening
tag that has a closing tag somewhere after it, and the non-greedy
group ends at the first closing tag after that. -/

/-- Case-insensitive literal-prefix match: if the lowercased input
starts with the (lowercase) pattern, return the remainder. -/
def dropPrefixCI : List Char → List Char → Option (List Char)
  | [], l => some l
  | _ :: _, [] => none
  | p :: ps, c :: cs =>
    if c.toLower == p then dropPrefixCI ps cs else none

/-- Inner text up to the first occurrence of the closing pattern
(case-insensitive); `none` if the pattern never occurs. -/
def innerUpToClose (pat : List Char) : List Char → Option (List Char)
  | [] => none
  | c :: t =>
    match dropPrefixCI pat (c :: t) with
    | some _ => some []
    | none => (innerUpToClose pat t).map (fun inner => c :: inner)

/-- Search `re.search(r"<tag>(.*?)</tag>", l, re.DOTALL | re.IGNORECASE)`,
returning the inner group. -/
def findTagInner (openPat closePat : List Char) :
    List Char → Option (List Char)
  | [] => none
  | c :: t =>
    match dropPrefixCI openPat (c :: t) with
    | some rest =>
      match innerUpToClose closePat rest with
      | some inner => some inner
      | none => findTagInner openPat closePat t
    | none => findTagInner openPat closePat t

/-- Search `re.search(r"\b1\b", ...)` for a single word-character token. -/
def hasStandaloneChar (d : Char) : Option Char → List Char → Bool
  | _, [] => false
  | prev, c :: t =>
    (c == d && boundaryBefore prev && boundaryAfter t) ||
      hasStandaloneChar d (some c) t

/-- The reasoning extraction of `parse_secm_response`: the trimmed
inner text of a `<reasoning>...</reasoning>` block, else empty. -/
def secm_reasoning (text : List Char) : List Char :=
  match findTagInner ("<reasoning>".toList) ("</reasoning>".toList)
      text with
  | some inner => trimList inner
  | none => []

/-- Function `parse_secm_response` from `bias_analysis.py`: trim; fail on empty;
extract `reasoning` as the trimmed inner text of a
`<reasoning>...</reasoning>` block (else `""`); classify the trimmed
inner text of an `<answer>...</answer>` block, or fall back to scanning
the whole text; `none` models `raise ValueError`. -/
def parse_secm_response (response_text : String) :
    Option (ℕ × String) :=
  let text := trimList response_text.toList
  if text.isEmpty then none
  else
    let reasoning := secm_reasoning text
    match findTagInner ("<answer>".toList) ("</answer>".toList) text with
    | some a0 =>
      let answer_text := trimList a0
      if containsSub answer_text ("1".toList) ||
          containsSub (lowerChars answer_text) ("one".toList) then
        some (1, String.mk reasoning)
      else if containsSub answer_text ("0".toList) ||
          containsSub (lowerChars answer_text) ("zero".toList) ||
          containsSub (lowerChars answer_text) ("absent".toList) then
        some (0, String.mk reasoning)
      else none
    | none =>
      if hasStandaloneChar '1' none text ||
          containsSub (lowerChars text) ("present".toList) ||
          containsSub (lowerChars text) ("yes".toList) then
        some (1, String.mk reasoning)
      else if hasStandaloneChar '0' none text ||
          containsSub (lowerChars text) ("absent".toList) ||
          containsSub (lowerChars text) ("no".toList) then
        some (0, String.mk reasoning)
      else none

/-! ## Theorems: scoring engine -/

/-- The 22-variable assignment where exactly the r1 right marker is 1
and every other marker is 0. -/
def r1_only_input : List (String × Int) :=
  (left_vars ++ right_vars ++ high_vars ++ low_vars).map
    (fun v =>
      (v, if v = "secm_ideol_r1_agentic_culpability" then (1 : Int)
          else 0))

/-- C2: `score_secm` sums the four hard-coded marker groups with absent
markers contributing 0 and returns `(R-L)/(R+L+K)` and `(H-E)/(H+E+K)`;
the empty map with `K = 4` yields `(0, 0)`, and the map with exactly the
r1 right marker set yields ideological `1/5 = 0.2` and epistemic `0`. -/
theorem score_secm_formula_and_examples :
    (∀ (m : List (String × Int)) (k : ℚ),
      score_secm m k =
        { ideological_score :=
            ((sumVars m right_vars : ℚ) - (sumVars m left_vars : ℚ)) /
              ((sumVars m right_vars : ℚ) + (sumVars m left_vars : ℚ) + k)
        , epistemic_score :=
            ((sumVars m high_vars : ℚ) - (sumVars m low_vars : ℚ)) /
              ((sumVars m high_vars : ℚ) + (sumVars m low_vars : ℚ) + k) }) ∧
    (∀ (m : List (String × Int)) (v : String) (vs : List String),
      lookupVar m v = none → sumVars m (v :: vs) = sumVars m vs) ∧
    score_secm [] 4 = { ideological_score := 0, epistemic_score := 0 } ∧
    score_secm r1_only_input 4 =
      { ideological_score := 1 / 5, epistemic_score := 0 } := by
  refine ⟨fun m k => rfl, fun m v vs h => sumVars_absent h vs, ?_, ?_⟩
  · norm_num [score_secm, sumVars, getVar, lookupVar, left_vars,
      right_vars, high_vars, low_vars]
  · have hL : sumVars r1_only_input left_vars = 0 := by decide
    have hR : sumVars r1_only_input right_vars = 1 := by decide
    have hH : sumVars r1_only_input high_vars = 0 := by decide
    have hE : sumVars r1_only_input low_vars = 0 := by decide
    simp [score_secm, hL, hR, hH, hE]
    norm_num

/-- C2 witness: the absent-marker conjunct applied at a concrete map. -/
theorem score_secm_formula_and_examples_witness :
    sumVars [] ["secm_ideol_l6_care_harm"] = sumVars [] [] :=
  score_secm_formula_and_examples.2.1 [] "secm_ideol_l6_care_harm" []
    rfl

/-- C9: `score_bias` is an identity pass-through: the returned map
equals the input map. -/
theorem score_bias_identity :
    ∀ raw_scores : List (String × ℚ), score_bias raw_scores = raw_scores :=
  fun _ => rfl

/-- Both `score_secm` components are bounded strictly by 1 in absolute
value on 0/1-valued maps with positive damping. -/
theorem score_secm_component_bounds {m : List (String × Int)} {k : ℚ}
    (hm : ∀ p ∈ m, p.2 = 0 ∨ p.2 = 1) (hk : 0 < k) :
    (-1 < (score_secm m k).ideological_score ∧
      (score_secm m k).ideological_score < 1) ∧
    (-1 < (score_secm m k).epistemic_score ∧
      (score_secm m k).epistemic_score < 1) := by
  have hR := sumVars_nonneg hm right_vars
  have hL := sumVars_nonneg hm left_vars
  have hH := sumVars_nonneg hm high_vars
  have hE := sumVars_nonneg hm low_vars
  constructor
  · have hR' : (0 : ℚ) ≤ (sumVars m right_vars : ℚ) := by
      exact_mod_cast hR
    have hL' : (0 : ℚ) ≤ (sumVars m left_vars : ℚ) := by
      exact_mod_cast hL
    have hD : (0 : ℚ) <
        (sumVars m right_vars : ℚ) + (sumVars m left_vars : ℚ) + k := by
      linarith
    constructor
    · rw [show (score_secm m k).ideological_score =
          ((sumVars m right_vars : ℚ) - (sumVars m left_vars : ℚ)) /
            ((sumVars m right_vars : ℚ) + (sumVars m left_vars : ℚ) + k)
          from rfl]
      rw [lt_div_iff hD]
      linarith
    · rw [show (score_secm m k).ideological_score =
          ((sumVars m right_vars : ℚ) - (sumVars m left_vars : ℚ)) /
            ((sumVars m right_vars : ℚ) + (sumVars m left_vars : ℚ) + k)
          from rfl]
      rw [div_lt_one hD]
      linarith
  · have hH' : (0 : ℚ) ≤ (sumVars m high_vars : ℚ) := by
      exact_mod_cast hH
    have hE' : (0 : ℚ) ≤ (sumVars m low_vars : ℚ) := by
      exact_mod_cast hE
    have hD : (0 : ℚ) <
        (sumVars m high_vars : ℚ) + (sumVars m low_vars : ℚ) + k := by
      linarith
    constructor
    · rw [show (score_secm m k).epistemic_score =
          ((sumVars m high_vars : ℚ) - (sumVars m low_vars : ℚ)) /
            ((sumVars m high_vars : ℚ) + (sumVars m low_vars : ℚ) + k)
          from rfl]
      rw [lt_div_iff hD]
      linarith
    · rw [show (score_secm m k).epistemic_score =
          ((sumVars m high_vars : ℚ) - (sumVars m low_vars : ℚ)) /
            ((sumVars m high_vars : ℚ) + (sumVars m low_vars : ℚ) + k)
          from rfl]
      rw [div_lt_one hD]
      linarith

/-- C3: on 0/1-valued maps with `K > 0`, both scores lie strictly in
`(-1, 1)`; and with all left markers at 0, setting any right marker
whose current value is 0 to 1 strictly increases the ideological score,
which remains below 1. -/
theorem score_secm_bounds_and_damping_monotonicity :
    ∀ (m : List (String × Int)) (k : ℚ),
      (∀ p ∈ m, p.2 = 0 ∨ p.2 = 1) → 0 < k →
      ((-1 < (score_secm m k).ideological_score ∧
          (score_secm m k).ideological_score < 1) ∧
       (-1 < (score_secm m k).epistemic_score ∧
          (score_secm m k).epistemic_score < 1)) ∧
      (∀ v ∈ right_vars, getVar m v = 0 →
        sumVars m left_vars = 0 →
        (score_secm m k).ideological_score <
          (score_secm (setVar m v 1) k).ideological_score ∧
        (score_secm (setVar m v 1) k).ideological_score < 1) := by
  intro m k hm hk
  refine ⟨score_secm_component_bounds hm hk, ?_⟩
  intro v hv hv0 hL0
  have hnd : right_vars.Nodup := by decide
  have hvnl : v ∉ left_vars := by
    have hall : ∀ w ∈ right_vars, w ∉ left_vars := by decide
    exact hall v hv
  have hR := sumVars_nonneg hm right_vars
  have hm' : ∀ p ∈ setVar m v 1, p.2 = 0 ∨ p.2 = 1 := by
    intro p hp
    rcases List.mem_cons.mp hp with h | h
    · right
      rw [h]
    · exact hm p h
  have hRset : sumVars (setVar m v 1) right_vars =
      sumVars m right_vars + 1 := by
    rw [sumVars_setVar_mem hnd hv, hv0]
    ring
  have hLset : sumVars (setVar m v 1) left_vars = 0 := by
    rw [sumVars_setVar_not_mem hvnl, hL0]
  constructor
  · rw [show (score_secm m k).ideological_score =
        ((sumVars m right_vars : ℚ) - (sumVars m left_vars : ℚ)) /
          ((sumVars m right_vars : ℚ) + (sumVars m left_vars : ℚ) + k)
        from rfl]
    rw [show (score_secm (setVar m v 1) k).ideological_score =
        ((sumVars (setVar m v 1) right_vars : ℚ) -
            (sumVars (setVar m v 1) left_vars : ℚ)) /
          ((sumVars (setVar m v 1) right_vars : ℚ) +
            (sumVars (setVar m v 1) left_vars : ℚ) + k)
        from rfl]
    rw [hRset, hLset, hL0]
    have hR' : (0 : ℚ) ≤ (sumVars m right_vars : ℚ) := by
      exact_mod_cast hR
    push_cast
    rw [div_lt_div_iff (by linarith) (by linarith)]
    ring_nf
    nlinarith
  · have := (score_secm_component_bounds hm' hk).1.2
    exact this

/-- C3 witness: bounds and monotonicity at a concrete map and damping
constant. -/
theorem score_secm_bounds_and_damping_monotonicity_witness :
    ((-1 < (score_secm [("secm_ideol_r1_agentic_culpability", 1)] 4).ideological_score ∧
        (score_secm [("secm_ideol_r1_agentic_culpability", 1)] 4).ideological_score < 1) ∧
     (-1 < (score_secm [("secm_ideol_r1_agentic_culpability", 1)] 4).epistemic_score ∧
        (score_secm [("secm_ideol_r1_agentic_culpability", 1)] 4).epistemic_score < 1)) ∧
    (∀ v ∈ right_vars,
      getVar [("secm_ideol_r1_agentic_culpability", 1)] v = 0 →
      sumVars [("secm_ideol_r1_agentic_culpability", 1)] left_vars = 0 →
      (score_secm [("secm_ideol_r1_agentic_culpability", 1)] 4).ideological_score <
        (score_secm (setVar [("secm_ideol_r1_agentic_culpability", 1)] v 1) 4).ideological_score ∧
      (score_secm (setVar [("secm_ideol_r1_agentic_culpability", 1)] v 1) 4).ideological_score < 1) :=
  score_secm_bounds_and_damping_monotonicity
    [("secm_ideol_r1_agentic_culpability", 1)] 4 (by decide) (by norm_num)

/-- C6: the overall bias score is `normalize(average of present
dimension scores, 1, 7, -1, 1)` where `normalize` is the exact linear
map `(x-a)/(b-a)*(d-c)+c` sending 1 to -1, 4 to 0 and 7 to 1 (so four
scores of 5 give `1/3`); it is `none` when no dimension score is
present. -/
theorem overall_bias_score_spec :
    (∀ x a b c d : ℚ, normalize_score_to_range x a b c d =
      (x - a) / (b - a) * (d - c) + c) ∧
    normalize_score_to_range 1 1 7 (-1) 1 = -1 ∧
    normalize_score_to_range 4 1 7 (-1) 1 = 0 ∧
    normalize_score_to_range 7 1 7 (-1) 1 = 1 ∧
    (∀ slots : List (Option ℚ), slots.filterMap id ≠ [] →
      overall_bias_score slots =
        some (normalize_score_to_range
          ((slots.filterMap id).sum / ((slots.filterMap id).length : ℚ))
          1 7 (-1) 1)) ∧
    (∀ slots : List (Option ℚ), slots.filterMap id = [] →
      overall_bias_score slots = none) ∧
    overall_bias_score [some 5, some 5, some 5, some 5] = some (1 / 3) := by
  refine ⟨fun x a b c d => rfl, by norm_num [normalize_score_to_range],
    by norm_num [normalize_score_to_range],
    by norm_num [normalize_score_to_range], ?_, ?_, ?_⟩
  · intro slots h
    unfold overall_bias_score
    rw [if_neg]
    simpa [List.isEmpty_iff] using h
  · intro slots h
    unfold overall_bias_score
    rw [if_pos]
    simpa [List.isEmpty_iff] using h
  · have h : List.filterMap id [some (5 : ℚ), some 5, some 5, some 5] =
        [5, 5, 5, 5] := rfl
    norm_num [overall_bias_score, h, normalize_score_to_range]

/-- C6 witness: the present-scores conjunct applied at a concrete slot
list, and the all-absent conjunct at another. -/
theorem overall_bias_score_spec_witness :
    overall_bias_score [some 5, none, none, none] =
      some (normalize_score_to_range
        (([some (5 : ℚ), none, none, none].filterMap id).sum /
          (([some (5 : ℚ), none, none, none].filterMap id).length : ℚ))
        1 7 (-1) 1) ∧
    overall_bias_score [none, none, none, none] = none :=
  ⟨overall_bias_score_spec.2.2.2.2.1 [some 5, none, none, none]
      (by decide),
    overall_bias_score_spec.2.2.2.2.2.1 [none, none, none, none]
      (by decide)⟩

/-! ## Theorems: fan-in aggregation (C1) -/

/-- The units whose caller succeeded, in order, with their values. -/
def successesOf {α : Type} (results : List (String × Except String α)) :
    List (String × α) :=
  results.filterMap (fun p =>
    match p.2 with
    | Except.ok v => some (p.1, v)
    | Except.error _ => none)

/-- The recorded failure entries, in order:
`f"{label} '{name}': {msg}"` for each failed unit. -/
def failuresOf {α : Type} (label : String)
    (results : List (String × Except String α)) : List String :=
  results.filterMap (fun p =>
    match p.2 with
    | Except.ok _ => none
    | Except.error e => some (label ++ " '" ++ p.1 ++ "': " ++ e))

theorem collectResults_eq {α : Type} (label : String)
    (results : List (String × Except String α)) :
    collectResults label results =
      (successesOf results, failuresOf label results) := by
  induction results with
  | nil => rfl
  | cons p rest ih =>
    obtain ⟨name, r⟩ := p
    cases r with
    | ok v =>
      simp [collectResults, ih, successesOf, failuresOf,
        List.filterMap_cons]
    | error e =>
      simp [collectResults, ih, successesOf, failuresOf,
        List.filterMap_cons]

theorem successesOf_eq_nil_iff {α : Type}
    (results : List (String × Except String α)) :
    successesOf results = [] ↔
      ∀ p ∈ results, ∃ e, p.2 = Except.error e := by
  induction results with
  | nil => simp [successesOf]
  | cons p rest ih =>
    obtain ⟨name, r⟩ := p
    cases r with
    | ok v => simp [successesOf, List.filterMap_cons]
    | error e =>
      simp [successesOf, List.filterMap_cons]
      simpa [successesOf] using ih

/-- C1 counterexample to the stated failure-entry format: a failed unit
`B` with reason `boom` is recorded as `"Dimension 'B': boom"`, which is
not the claimed `"B: boom"`. -/
theorem rate_parallel_failure_format_counterexample :
    (collectResults "Dimension"
        [("A", Except.ok (2 : ℚ)), ("B", Except.error "boom")]).2 =
      ["Dimension 'B': boom"] ∧
    ("Dimension 'B': boom" : String) ≠ "B: boom" ∧
    rate_bias_parallel [("B", Except.error "boom")] =
      Except.error (502, "Bias rating failed: Dimension 'B': boom") := by
  exact ⟨rfl, by decide, rfl⟩

/-- C1 (amended): the orchestrators return exactly the units whose
caller succeeded whenever at least one succeeded, record each failed
unit as `"Dimension '<name>': <reason>"` (bias) or
`"Variable '<name>': <reason>"` (SECM), and raise HTTP 502 — with the
failure entries joined by `"; "` after the fixed prefix — if and only
if every unit failed. -/
theorem rate_parallel_resilient_aggregation :
    (∀ results : List (String × Except String ℚ),
      collectResults "Dimension" results =
        (successesOf results, failuresOf "Dimension" results)) ∧
    (∀ results : List (String × Except String (ℕ × String)),
      collectResults "Variable" results =
        (successesOf results, failuresOf "Variable" results)) ∧
    (∀ results : List (String × Except String ℚ),
      rate_bias_parallel results =
        if successesOf results = [] then
          Except.error (502, "Bias rating failed: " ++
            String.intercalate "; " (failuresOf "Dimension" results))
        else Except.ok (successesOf results)) ∧
    (∀ results : List (String × Except String (ℕ × String)),
      rate_secm_parallel results =
        if successesOf results = [] then
          Except.error (502, "SECM rating failed: " ++
            String.intercalate "; " (failuresOf "Variable" results))
        else Except.ok (successesOf results)) ∧
    (∀ results : List (String × Except String ℚ),
      successesOf results = [] ↔
        ∀ p ∈ results, ∃ e, p.2 = Except.error e) := by
  refine ⟨fun results => collectResults_eq _ _,
    fun results => collectResults_eq _ _, ?_, ?_,
    fun results => successesOf_eq_nil_iff results⟩
  · intro results
    unfold rate_bias_parallel aggregateParallel
    rw [collectResults_eq]
    by_cases h : successesOf results = []
    · simp [h]
    · simp [h, List.isEmpty_iff]
  · intro results
    unfold rate_secm_parallel aggregateParallel
    rw [collectResults_eq]
    by_cases h : successesOf results = []
    · simp [h]
    · simp [h, List.isEmpty_iff]

/-- C1 witness: the amended aggregation policy evaluated on a concrete
mixed run and on a concrete all-failed run. -/
theorem rate_parallel_resilient_aggregation_witness :
    (rate_bias_parallel [("A", Except.ok (2 : ℚ)),
        ("B", Except.error "boom"), ("C", Except.ok 3)] =
      if successesOf [("A", Except.ok (2 : ℚ)),
          ("B", Except.error "boom"), ("C", Except.ok 3)] = [] then
        Except.error (502, "Bias rating failed: " ++
          String.intercalate "; " (failuresOf "Dimension"
            [("A", Except.ok (2 : ℚ)), ("B", Except.error "boom"),
              ("C", Except.ok 3)]))
      else Except.ok (successesOf [("A", Except.ok (2 : ℚ)),
        ("B", Except.error "boom"), ("C", Except.ok 3)])) ∧
    (successesOf [("A", (Except.error "x" : Except String ℚ)),
          ("B", Except.error "y")] = []
      ↔ ∀ p ∈ [("A", (Except.error "x" : Except String ℚ)),
          ("B", Except.error "y")],
          ∃ e, p.2 = Except.error e) :=
  ⟨rate_parallel_resilient_aggregation.2.2.1 _,
    rate_parallel_resilient_aggregation.2.2.2.2 _⟩

/-! ## Theorems: retry backoff policy (C5) -/

/-- Delays slept by the retry loop when every attempt fails: one delay
per non-final attempt, chosen by the delay policy at that attempt's
error and index. -/
theorem retryLoop_all_fail_delays {α : Type} (d : String → ℕ → ℚ)
    (ef : ℕ → String) :
    ∀ fuel attempt : ℕ,
      (retryLoop (α := α) d (fun i => Except.error (ef i)) attempt
        fuel).2 =
        (List.range' attempt (fuel - 1)).map (fun i => d (ef i) i) := by
  intro fuel
  induction fuel with
  | zero => intro attempt; rfl
  | succ n ih =>
    cases n with
    | zero => intro attempt; rfl
    | succ m =>
      intro attempt
      have hstep : retryLoop (α := α) d (fun i => Except.error (ef i))
          attempt (m + 2) =
          ((retryLoop (α := α) d (fun i => Except.error (ef i))
              (attempt + 1) (m + 1)).1,
            d (ef attempt) attempt ::
              (retryLoop (α := α) d (fun i => Except.error (ef i))
                (attempt + 1) (m + 1)).2) := rfl
      rw [hstep]
      simp only [ih (attempt + 1)]
      simp [List.range'_succ]

/-- C5 counterexample: on an error message that satisfies the
503-overload signature, the SECM variable caller still waits the
linear-backoff delays 1s then 2s (defaults), not the fixed 5s. -/
theorem secm_caller_overload_delay_counterexample :
    is_503_overload "503 UNAVAILABLE: The model is overloaded." =
      true ∧
    (call_llm_for_secm_variable
        (fun _ =>
          Except.error "503 UNAVAILABLE: The model is overloaded.")
        3 1).2 = [1, 2] ∧
    (call_llm_for_dimension
        (fun _ =>
          Except.error "503 UNAVAILABLE: The model is overloaded.")
        5 1 5).2 = [5, 5, 5, 5] ∧
    ([1, 2] : List ℚ) ≠ [5, 5] := by
  have hov : is_503_overload
      "503 UNAVAILABLE: The model is overloaded." = true := by decide
  refine ⟨hov, ?_, ?_, ?_⟩
  · norm_num [call_llm_for_secm_variable, retryLoop, secm_attempt_delay]
  · norm_num [call_llm_for_dimension, retryLoop,
      dimension_attempt_delay, hov]
  · norm_num

/-- C5 (amended): the continuous-dimension caller classifies each
failure and waits the fixed configurable delay (default 5) on a
503-overload error and `retry_delay * (attempt+1)` otherwise, while the
binary-variable caller waits `retry_delay * (attempt+1)` for every
error, performing no overload classification. -/
theorem caller_backoff_policy :
    (∀ (ef : ℕ → String) (maxr : ℕ) (rd od : ℚ),
      (call_llm_for_dimension (fun i => Except.error (ef i)) maxr rd
        od).2 =
        (List.range' 0 (maxr - 1)).map
          (fun i => dimension_attempt_delay rd od (ef i) i)) ∧
    (∀ (ef : ℕ → String) (maxr : ℕ) (rd : ℚ),
      (call_llm_for_secm_variable (fun i => Except.error (ef i)) maxr
        rd).2 =
        (List.range' 0 (maxr - 1)).map
          (fun i => secm_attempt_delay rd (ef i) i)) ∧
    (∀ (rd od : ℚ) (e : String) (a : ℕ), is_503_overload e = true →
      dimension_attempt_delay rd od e a = od) ∧
    (∀ (rd od : ℚ) (e : String) (a : ℕ), is_503_overload e = false →
      dimension_attempt_delay rd od e a = rd * ((a : ℚ) + 1)) ∧
    (∀ (rd : ℚ) (e : String) (a : ℕ),
      secm_attempt_delay rd e a = rd * ((a : ℚ) + 1)) := by
  refine ⟨?_, ?_, ?_, ?_, fun rd e a => rfl⟩
  · intro ef maxr rd od
    exact retryLoop_all_fail_delays _ ef maxr 0
  · intro ef maxr rd
    exact retryLoop_all_fail_delays _ ef maxr 0
  · intro rd od e a h
    simp [dimension_attempt_delay, h]
  · intro rd od e a h
    simp [dimension_attempt_delay, h]

/-- C5 witness: the backoff policy evaluated at concrete errors and
attempt indices. -/
theorem caller_backoff_policy_witness :
    dimension_attempt_delay 1 5 "503 service unavailable" 0 = 5 ∧
    dimension_attempt_delay 1 5 "parse failure" 2 = 1 * ((2 : ℚ) + 1) ∧
    (call_llm_for_secm_variable
        (fun _ => Except.error "parse failure") 3 1).2 =
      (List.range' 0 (3 - 1)).map
        (fun i => secm_attempt_delay 1 "parse failure" i) :=
  ⟨caller_backoff_policy.2.2.1 1 5 "503 service unavailable" 0
      (by decide),
    caller_backoff_policy.2.2.2.1 1 5 "parse failure" 2 (by decide),
    caller_backoff_policy.2.1 (fun _ => "parse failure") 3 1⟩

/-! ## Theorems: binary response parser (C7, C10) -/

/-- C7: `parse_secm_response` takes `reasoning` from the trimmed inner
text of a case-insensitive, possibly multi-line `<reasoning>` block
(empty when absent), classifies the `<answer>` block's inner text —
containing "1" or "one" gives 1; containing "0", "zero" or "absent"
gives 0; anything else fails — and in particular
`parseBinary("<answer>1</answer>") = (1, "")` and
`parseBinary("<reasoning>x</reasoning><answer>0</answer>") = (0, "x")`. -/
theorem parse_secm_response_spec :
    parse_secm_response "<answer>1</answer>" = some (1, "") ∧
    parse_secm_response "<reasoning>x</reasoning><answer>0</answer>" =
      some (0, "x") ∧
    parse_secm_response "<ANSWER>one</ANSWER>" = some (1, "") ∧
    parse_secm_response
        "<Reasoning>a\nb</Reasoning><answer>zero</answer>" =
      some (0, "a\nb") ∧
    parse_secm_response "<answer>Absent</answer>" = some (0, "") ∧
    parse_secm_response "<answer>maybe</answer>" = none ∧
    (∀ (s : String) (v : ℕ) (r : String),
      parse_secm_response s = some (v, r) →
      r = String.mk (secm_reasoning (trimList s.toList))) ∧
    (∀ (s : String) (a : List Char), trimList s.toList ≠ [] →
      findTagInner ("<answer>".toList) ("</answer>".toList)
        (trimList s.toList) = some a →
      (containsSub (trimList a) ("1".toList) ||
        containsSub (lowerChars (trimList a)) ("one".toList)) = true →
      parse_secm_response s =
        some (1, String.mk (secm_reasoning (trimList s.toList)))) ∧
    (∀ (s : String) (a : List Char), trimList s.toList ≠ [] →
      findTagInner ("<answer>".toList) ("</answer>".toList)
        (trimList s.toList) = some a →
      (containsSub (trimList a) ("1".toList) ||
        containsSub (lowerChars (trimList a)) ("one".toList)) = false →
      (containsSub (trimList a) ("0".toList) ||
        containsSub (lowerChars (trimList a)) ("zero".toList) ||
        containsSub (lowerChars (trimList a)) ("absent".toList)) =
          true →
      parse_secm_response s =
        some (0, String.mk (secm_reasoning (trimList s.toList)))) ∧
    (∀ (s : String) (a : List Char), trimList s.toList ≠ [] →
      findTagInner ("<answer>".toList) ("</answer>".toList)
        (trimList s.toList) = some a →
      (containsSub (trimList a) ("1".toList) ||
        containsSub (lowerChars (trimList a)) ("one".toList)) = false →
      (containsSub (trimList a) ("0".toList) ||
        containsSub (lowerChars (trimList a)) ("zero".toList) ||
        containsSub (lowerChars (trimList a)) ("absent".toList)) =
          false →
      parse_secm_response s = none) := by
  refine ⟨by decide, by decide, by decide, by decide, by decide,
    by decide, ?_, ?_, ?_, ?_⟩
  · intro s v r h
    unfold parse_secm_response at h
    dsimp only at h
    split at h
    · simp at h
    · split at h
      · split at h
        · simp at h
          exact h.2.symm
        · split at h
          · simp at h
            exact h.2.symm
          · simp at h
      · split at h
        · simp at h
          exact h.2.symm
        · split at h
          · simp at h
            exact h.2.symm
          · simp at h
  · intro s a hne hfind hcond
    have hemp : ¬((trimList s.toList).isEmpty = true) := by
      simpa [List.isEmpty_iff] using hne
    simp only [parse_secm_response, if_neg hemp, hfind, hcond,
      if_pos]
  · intro s a hne hfind hcond1 hcond0
    have hemp : ¬((trimList s.toList).isEmpty = true) := by
      simpa [List.isEmpty_iff] using hne
    simp only [parse_secm_response, if_neg hemp, hfind, hcond1,
      hcond0, Bool.false_eq_true, if_false, if_pos]
  · intro s a hne hfind hcond1 hcond0
    have hemp : ¬((trimList s.toList).isEmpty = true) := by
      simpa [List.isEmpty_iff] using hne
    simp only [parse_secm_response, if_neg hemp, hfind, hcond1,
      hcond0, Bool.false_eq_true, if_false]

/-- C7 witness: the answer-tag classification rules applied at concrete
responses. -/
theorem parse_secm_response_spec_witness :
    parse_secm_response "<answer> 1 </answer>" =
      some (1, String.mk (secm_reasoning
        (trimList ("<answer> 1 </answer>".toList)))) ∧
    parse_secm_response "<answer>zero it is</answer>" =
      some (0, String.mk (secm_reasoning
        (trimList ("<answer>zero it is</answer>".toList)))) ∧
    parse_secm_response "<answer>xyz</answer>" = none :=
  ⟨parse_secm_response_spec.2.2.2.2.2.2.2.1 "<answer> 1 </answer>"
      (" 1 ".toList) (by decide) (by decide) (by decide),
    parse_secm_response_spec.2.2.2.2.2.2.2.2.1
      "<answer>zero it is</answer>" ("zero it is".toList)
      (by decide) (by decide) (by decide) (by decide),
    parse_secm_response_spec.2.2.2.2.2.2.2.2.2
      "<answer>xyz</answer>" ("xyz".toList)
      (by decide) (by decide) (by decide) (by decide)⟩

/-- C10: with no `<answer>` block, the fallback classifies the whole
text: a standalone "1" token or the substrings "present"/"yes" give
value 1; otherwise the letter sequence "no" anywhere in the lowercased
text — including inside words like "cannot", "unknown", "nothing" —
gives value 0 rather than a parse error. -/
theorem parse_secm_fallback_spec :
    (∀ s : String, trimList s.toList ≠ [] →
      findTagInner ("<answer>".toList) ("</answer>".toList)
        (trimList s.toList) = none →
      (hasStandaloneChar '1' none (trimList s.toList) ||
        containsSub (lowerChars (trimList s.toList))
          ("present".toList) ||
        containsSub (lowerChars (trimList s.toList)) ("yes".toList)) =
          true →
      parse_secm_response s =
        some (1, String.mk (secm_reasoning (trimList s.toList)))) ∧
    (∀ s : String, trimList s.toList ≠ [] →
      findTagInner ("<answer>".toList) ("</answer>".toList)
        (trimList s.toList) = none →
      (hasStandaloneChar '1' none (trimList s.toList) ||
        containsSub (lowerChars (trimList s.toList))
          ("present".toList) ||
        containsSub (lowerChars (trimList s.toList)) ("yes".toList)) =
          false →
      containsSub (lowerChars (trimList s.toList)) ("no".toList) =
        true →
      parse_secm_response s =
        some (0, String.mk (secm_reasoning (trimList s.toList)))) ∧
    parse_secm_response "cannot" = some (0, "") ∧
    parse_secm_response "unknown" = some (0, "") ∧
    parse_secm_response "nothing" = some (0, "") ∧
    parse_secm_response "yes" = some (1, "") := by
  refine ⟨?_, ?_, by decide, by decide, by decide, by decide⟩
  · intro s hne hfind hcond
    have hemp : ¬((trimList s.toList).isEmpty = true) := by
      simpa [List.isEmpty_iff] using hne
    simp only [parse_secm_response, if_neg hemp, hfind, hcond, if_pos]
  · intro s hne hfind hcond1 hno
    have hemp : ¬((trimList s.toList).isEmpty = true) := by
      simpa [List.isEmpty_iff] using hne
    have hcond0 : (hasStandaloneChar '0' none (trimList s.toList) ||
        containsSub (lowerChars (trimList s.toList))
          ("absent".toList) ||
        containsSub (lowerChars (trimList s.toList)) ("no".toList)) =
          true := by
      rw [Bool.or_eq_true]
      right
      exact hno
    simp only [parse_secm_response, if_neg hemp, hfind, hcond1,
      Bool.false_eq_true, if_false, hcond0, if_pos]

/-- C10 witness: the fallback rules applied at concrete answerless
responses. -/
theorem parse_secm_fallback_spec_witness :
    parse_secm_response "The marker is present here" =
      some (1, String.mk (secm_reasoning
        (trimList ("The marker is present here".toList)))) ∧
    parse_secm_response "cannot say" =
      some (0, String.mk (secm_reasoning
        (trimList ("cannot say".toList)))) :=
  ⟨parse_secm_fallback_spec.1 "The marker is present here"
      (by decide) (by decide) (by decide),
    parse_secm_fallback_spec.2.1 "cannot say"
      (by decide) (by decide) (by decide) (by decide)⟩

/-! ## Numeric literals (the claims' "numeric string"), and scanning
lemmas for parse_llm_score -/

/-- An unsigned decimal literal: a digit run, optionally followed by a
dot and a second digit run.  (Spec-side definition of the claim's
"numeric string", without a sign.) -/
def isUnsignedNumericLit (l : List Char) : Bool :=
  match l.dropWhile Char.isDigit with
  | [] => !(l.takeWhile Char.isDigit).isEmpty
  | '.' :: d2 =>
    !(l.takeWhile Char.isDigit).isEmpty && !d2.isEmpty &&
      d2.all Char.isDigit
  | _ => false

/-- A numeric literal: an optional minus sign before an unsigned
literal.  (Spec-side definition of the claim's "numeric string".) -/
def isNumericLit (l : List Char) : Bool :=
  match l with
  | '-' :: rest => isUnsignedNumericLit rest
  | _ => isUnsignedNumericLit l

/-- Mathematical value of an unsigned decimal literal. -/
def unsignedNumericValue (l : List Char) : ℚ :=
  match l.dropWhile Char.isDigit with
  | '.' :: d2 => decimalValue (l.takeWhile Char.isDigit) d2
  | _ => (digitsToNat (l.takeWhile Char.isDigit) : ℚ)

/-- Mathematical value of a numeric literal. -/
def numericValue (l : List Char) : ℚ :=
  match l with
  | '-' :: rest => -(unsignedNumericValue rest)
  | _ => unsignedNumericValue l

theorem dropWhile_all_false {p : Char → Bool} {l : List Char}
    (h : ∀ c ∈ l, p c = false) : l.dropWhile p = l := by
  cases l with
  | nil => rfl
  | cons c t => simp [List.dropWhile_cons, h c (List.mem_cons_self c t)]

theorem takeWhile_all_true {p : Char → Bool} {l : List Char}
    (h : ∀ c ∈ l, p c = true) :
    l.takeWhile p = l ∧ l.dropWhile p = [] := by
  induction l with
  | nil => exact ⟨rfl, rfl⟩
  | cons c t ih =>
    have hc := h c (List.mem_cons_self c t)
    have ht := ih (fun a ha => h a (List.mem_cons_of_mem c ha))
    simp [List.takeWhile_cons, List.dropWhile_cons, hc, ht.1, ht.2]

theorem takeWhile_append_stop {p : Char → Bool} {d1 : List Char}
    {x : Char} {t : List Char} (hd1 : ∀ c ∈ d1, p c = true)
    (hx : p x = false) :
    (d1 ++ x :: t).takeWhile p = d1 ∧
      (d1 ++ x :: t).dropWhile p = x :: t := by
  induction d1 with
  | nil => simp [List.takeWhile_cons, List.dropWhile_cons, hx]
  | cons c cs ih =>
    have hc := hd1 c (List.mem_cons_self c cs)
    have ht := ih (fun a ha => hd1 a (List.mem_cons_of_mem c ha))
    simp [List.takeWhile_cons, List.dropWhile_cons, hc, ht.1, ht.2]

theorem isDigit_not_whitespace {c : Char} (h : c.isDigit = true) :
    c.isWhitespace = false := by
  simp only [Char.isWhitespace]
  have h1 : ¬(c = ' ') := by rintro rfl; exact absurd h (by decide)
  have h2 : ¬(c = '\t') := by rintro rfl; exact absurd h (by decide)
  have h3 : ¬(c = '\r') := by rintro rfl; exact absurd h (by decide)
  have h4 : ¬(c = '\n') := by rintro rfl; exact absurd h (by decide)
  simp [h1, h2, h3, h4]

theorem trimList_eq_self {l : List Char}
    (h : ∀ c ∈ l, c.isWhitespace = false) : trimList l = l := by
  unfold trimList
  rw [dropWhile_all_false h,
    dropWhile_all_false (fun c hc => h c (List.mem_reverse.mp hc)),
    List.reverse_reverse]

theorem matchDecimalAt_not_digit {prev : Option Char} {c : Char}
    {t : List Char} (h : c.isDigit = false) :
    matchDecimalAt prev (c :: t) = none := by
  unfold matchDecimalAt
  simp [List.takeWhile_cons, h]

theorem matchIntegerAt_not_digit {prev : Option Char} {c : Char}
    {t : List Char} (h : c.isDigit = false) :
    matchIntegerAt prev (c :: t) = none := by
  unfold matchIntegerAt
  simp [List.takeWhile_cons, h]

theorem findDecimalAux_cons_step {prev : Option Char} {c : Char}
    {t : List Char} (h : matchDecimalAt prev (c :: t) = none) :
    findDecimalAux prev (c :: t) = findDecimalAux (some c) t := by
  simp [findDecimalAux, h]

theorem findIntegerAux_cons_step {prev : Option Char} {c : Char}
    {t : List Char} (h : matchIntegerAt prev (c :: t) = none) :
    findIntegerAux prev (c :: t) = findIntegerAux (some c) t := by
  simp [findIntegerAux, h]

/-- At a word boundary, the decimal regex matches a full decimal
literal and captures its two digit groups. -/
theorem findDecimalAux_decimal {prev : Option Char}
    (hb : boundaryBefore prev = true) {d1 d2 : List Char}
    (h1 : d1 ≠ []) (hd1 : ∀ c ∈ d1, c.isDigit = true) (h2 : d2 ≠ [])
    (hd2 : ∀ c ∈ d2, c.isDigit = true) :
    findDecimalAux prev (d1 ++ '.' :: d2) = some (d1, d2) := by
  have hm : matchDecimalAt prev (d1 ++ '.' :: d2) = some (d1, d2) := by
    have hsplit := takeWhile_append_stop (t := d2) hd1
      (show Char.isDigit '.' = false by decide)
    have hd2' := takeWhile_all_true hd2
    unfold matchDecimalAt
    rw [hsplit.1, hsplit.2]
    simp [hb, h1, h2, hd2'.1, hd2'.2, boundaryAfter,
      List.isEmpty_iff]
  obtain ⟨c, cs, rfl⟩ := List.exists_cons_of_ne_nil h1
  rw [show (c :: cs) ++ '.' :: d2 = c :: (cs ++ '.' :: d2) from rfl]
    at hm ⊢
  simp [findDecimalAux, hm]

/-- The decimal regex never matches inside an all-digit text. -/
theorem findDecimalAux_all_digits {l : List Char}
    (h : ∀ c ∈ l, c.isDigit = true) :
    ∀ prev, findDecimalAux prev l = none := by
  induction l with
  | nil => intro prev; rfl
  | cons c t ih =>
    intro prev
    have hall : ∀ a ∈ c :: t, a.isDigit = true := h
    have hdrop : (c :: t).dropWhile Char.isDigit = [] :=
      (takeWhile_all_true hall).2
    have hm : matchDecimalAt prev (c :: t) = none := by
      unfold matchDecimalAt
      rw [hdrop]
      simp
    rw [findDecimalAux_cons_step hm]
    exact ih (fun a ha => h a (List.mem_cons_of_mem c ha)) (some c)

/-- At a word boundary, the integer regex matches a full digit run. -/
theorem findIntegerAux_digits {prev : Option Char}
    (hb : boundaryBefore prev = true) {l : List Char} (h1 : l ≠ [])
    (hd : ∀ c ∈ l, c.isDigit = true) :
    findIntegerAux prev l = some l := by
  have hl := takeWhile_all_true hd
  have hm : matchIntegerAt prev l = some l := by
    unfold matchIntegerAt
    rw [hl.1, hl.2]
    simp [hb, h1, boundaryAfter, List.isEmpty_iff]
  obtain ⟨c, cs, rfl⟩ := List.exists_cons_of_ne_nil h1
  simp [findIntegerAux, hm]

/-- Decomposition of an unsigned numeric literal into its digit
groups. -/
theorem unsignedNumericLit_cases {l : List Char}
    (h : isUnsignedNumericLit l = true) :
    (l ≠ [] ∧ (∀ c ∈ l, c.isDigit = true) ∧
      unsignedNumericValue l = (digitsToNat l : ℚ)) ∨
    (∃ d1 d2, l = d1 ++ '.' :: d2 ∧ d1 ≠ [] ∧ d2 ≠ [] ∧
      (∀ c ∈ d1, c.isDigit = true) ∧ (∀ c ∈ d2, c.isDigit = true) ∧
      unsignedNumericValue l = decimalValue d1 d2) := by
  have hsplit := List.takeWhile_append_dropWhile (p := Char.isDigit)
    (l := l)
  unfold isUnsignedNumericLit at h
  split at h
  case h_1 hdrop =>
    left
    have hl := hsplit
    rw [hdrop, List.append_nil] at hl
    refine ⟨?_, ?_, ?_⟩
    · intro hnil
      rw [hnil] at h
      simp at h
    · intro c hc
      rw [← hl] at hc
      exact List.mem_takeWhile_imp hc
    · unfold unsignedNumericValue
      rw [hdrop, hl]
  case h_2 d2 hdrop =>
    simp only [Bool.and_eq_true, Bool.not_eq_true'] at h
    right
    refine ⟨l.takeWhile Char.isDigit, d2, ?_, ?_, ?_, ?_, ?_, ?_⟩
    · have h0 := hsplit.symm
      rw [hdrop] at h0
      exact h0
    · intro hnil
      rw [hnil] at h
      obtain ⟨⟨ha, _⟩, _⟩ := h
      simp at ha
    · intro hnil
      rw [hnil] at h
      obtain ⟨⟨_, hb⟩, _⟩ := h
      simp at hb
    · intro c hc
      exact List.mem_takeWhile_imp hc
    · intro c hc
      exact (List.all_eq_true.mp h.2) c hc
    · unfold unsignedNumericValue
      rw [hdrop]
      rfl
  case h_3 =>
    simp at h

/-! ## Theorems: continuous score parser (C4, C8) -/

/-- C4 counterexample: `"-5"` is a numeric string with value -5, and
`clamp(-5, 1, 7) = 1`, but `parse_llm_score` ignores the sign and
returns 5. -/
theorem parse_llm_score_sign_counterexample :
    isNumericLit ("-5".toList) = true ∧
    numericValue ("-5".toList) = -5 ∧
    parse_llm_score "-5" = some 5 ∧
    max (1 : ℚ) (min 7 (-5)) = 1 ∧
    ((5 : ℚ) ≠ 1) := by
  refine ⟨by decide, ?_, ?_, by norm_num, by norm_num⟩
  · have hd : ("5".toList).dropWhile Char.isDigit = [] := by decide
    have ht : ("5".toList).takeWhile Char.isDigit = "5".toList := by
      decide
    have h5 : digitsToNat ("5".toList) = 5 := by decide
    show -(unsignedNumericValue ("5".toList)) = -5
    simp only [unsignedNumericValue, hd, ht, h5]
    norm_num
  · have h0 : (trimList ("-5".toList)).isEmpty = false := by decide
    have hfd : findDecimal (trimList ("-5".toList)) = none := by decide
    have hfi : findInteger (trimList ("-5".toList)) =
        some ("5".toList) := by decide
    have h5 : digitsToNat ("5".toList) = 5 := by decide
    simp only [parse_llm_score, h0, hfd, hfi, h5, Bool.false_eq_true,
      if_false]
    norm_num

/-- C4 (amended): for every unsigned numeric string (digits, optionally
a dot and more digits) with value `n`, `parse_llm_score` returns
`clamp(n, 1, 7)` and does not raise; a leading minus sign is ignored,
so a negative numeric string is parsed as its unsigned digit portion
(hence "-1" still yields 1.0, but only by coincidence). -/
theorem parse_llm_score_clamps_unsigned :
    (∀ l : List Char, isUnsignedNumericLit l = true →
      parse_llm_score (String.mk l) =
        some (max 1 (min 7 (unsignedNumericValue l)))) ∧
    (∀ l : List Char, isUnsignedNumericLit l = true →
      parse_llm_score (String.mk ('-' :: l)) =
        some (max 1 (min 7 (unsignedNumericValue l)))) := by
  constructor
  · intro l hl
    rcases unsignedNumericLit_cases hl with
      ⟨hne, hdig, hval⟩ | ⟨d1, d2, heq, h1, h2, hd1, hd2, hval⟩
    · have htrim : trimList (String.mk l).toList = l :=
        trimList_eq_self
          (fun c hc => isDigit_not_whitespace (hdig c hc))
      have hne' : l.isEmpty = false := by
        cases l with
        | nil => exact absurd rfl hne
        | cons c t => rfl
      have hfd : findDecimal l = none :=
        findDecimalAux_all_digits hdig none
      have hfi : findInteger l = some l :=
        findIntegerAux_digits (show boundaryBefore none = true by rfl)
          hne hdig
      simp only [parse_llm_score, htrim, hne', Bool.false_eq_true,
        if_false, hfd, hfi, hval]
    · have hmem : ∀ c ∈ l, c.isWhitespace = false := by
        intro c hc
        rw [heq] at hc
        rcases List.mem_append.mp hc with hc1 | hc2
        · exact isDigit_not_whitespace (hd1 c hc1)
        · rcases List.mem_cons.mp hc2 with rfl | hc3
          · decide
          · exact isDigit_not_whitespace (hd2 c hc3)
      have htrim : trimList (String.mk l).toList = l :=
        trimList_eq_self hmem
      have hne' : l.isEmpty = false := by
        rw [heq]
        cases d1 with
        | nil => exact absurd rfl h1
        | cons c t => rfl
      have hfd : findDecimal l = some (d1, d2) := by
        show findDecimalAux none l = some (d1, d2)
        rw [heq]
        exact findDecimalAux_decimal
          (show boundaryBefore none = true by rfl) h1 hd1 h2 hd2
      simp only [parse_llm_score, htrim, hne', Bool.false_eq_true,
        if_false, hfd, hval]
  · intro l hl
    have hminus : Char.isDigit '-' = false := by decide
    rcases unsignedNumericLit_cases hl with
      ⟨hne, hdig, hval⟩ | ⟨d1, d2, heq, h1, h2, hd1, hd2, hval⟩
    · have htrim : trimList (String.mk ('-' :: l)).toList =
          '-' :: l := by
        refine trimList_eq_self ?_
        intro c hc
        rcases List.mem_cons.mp hc with rfl | hc2
        · decide
        · exact isDigit_not_whitespace (hdig c hc2)
      have hfd : findDecimal ('-' :: l) = none := by
        show findDecimalAux none ('-' :: l) = none
        rw [findDecimalAux_cons_step (matchDecimalAt_not_digit hminus)]
        exact findDecimalAux_all_digits hdig (some '-')
      have hfi : findInteger ('-' :: l) = some l := by
        show findIntegerAux none ('-' :: l) = some l
        rw [findIntegerAux_cons_step (matchIntegerAt_not_digit hminus)]
        exact findIntegerAux_digits (by decide) hne hdig
      simp only [parse_llm_score, htrim, List.isEmpty_cons,
        Bool.false_eq_true, if_false, hfd, hfi, hval]
    · have hmem : ∀ c ∈ '-' :: l, c.isWhitespace = false := by
        intro c hc
        rcases List.mem_cons.mp hc with rfl | hc2
        · decide
        · rw [heq] at hc2
          rcases List.mem_append.mp hc2 with hc3 | hc4
          · exact isDigit_not_whitespace (hd1 c hc3)
          · rcases List.mem_cons.mp hc4 with rfl | hc5
            · decide
            · exact isDigit_not_whitespace (hd2 c hc5)
      have htrim : trimList (String.mk ('-' :: l)).toList =
          '-' :: l := trimList_eq_self hmem
      have hfd : findDecimal ('-' :: l) = some (d1, d2) := by
        show findDecimalAux none ('-' :: l) = some (d1, d2)
        rw [findDecimalAux_cons_step (matchDecimalAt_not_digit hminus)]
        rw [heq]
        exact findDecimalAux_decimal (by decide) h1 hd1 h2 hd2
      simp only [parse_llm_score, htrim, List.isEmpty_cons,
        Bool.false_eq_true, if_false, hfd, hval]

/-- C4 witness: the clamp behavior at `"7.5"` (clamped to 7) and the
sign-dropping behavior at `"-1"`. -/
theorem parse_llm_score_clamps_unsigned_witness :
    parse_llm_score (String.mk ("7.5".toList)) =
      some (max 1 (min 7 (unsignedNumericValue ("7.5".toList)))) ∧
    parse_llm_score (String.mk ('-' :: "1".toList)) =
      some (max 1 (min 7 (unsignedNumericValue ("1".toList)))) :=
  ⟨parse_llm_score_clamps_unsigned.1 ("7.5".toList) (by decide),
    parse_llm_score_clamps_unsigned.2 ("1".toList) (by decide)⟩

theorem findWritten_eq_none_iff (t : List Char) :
    ∀ wl : List (List Char × ℕ),
      findWritten t wl = none ↔ ∀ wn ∈ wl, containsSub t wn.1 = false := by
  intro wl
  induction wl with
  | nil => simp [findWritten]
  | cons w rest ih =>
    obtain ⟨wd, n⟩ := w
    by_cases hc : containsSub t wd = true
    · simp [findWritten, hc]
    · have hc' : containsSub t wd = false := by
        cases h : containsSub t wd
        · rfl
        · exact absurd h hc
      simp [findWritten, hc', ih]

/-- C8 counterexample: `"a1b"` contains a digit sequence and a
non-empty trimmed text, yet `parse_llm_score` raises (the digit run is
not delimited by word boundaries). -/
theorem parse_llm_score_embedded_digit_counterexample :
    ("a1b".toList).any Char.isDigit = true ∧
    trimList ("a1b".toList) ≠ [] ∧
    parse_llm_score "a1b" = none := by
  refine ⟨by decide, by decide, by decide⟩

/-- C8 (amended): `parse_llm_score` fails exactly when the trimmed
input is empty, or the text contains no word-boundary-delimited number
(no match of the decimal or integer regex) and none of the English
words "one".."seven" case-insensitively; in particular `""`, `"   "`
and `"N/A"` each fail. -/
theorem parse_llm_score_failure_characterization :
    (∀ s : String, parse_llm_score s = none ↔
      (trimList s.toList = [] ∨
        (findDecimal (trimList s.toList) = none ∧
         findInteger (trimList s.toList) = none ∧
         ∀ wn ∈ written_numbers,
           containsSub (lowerChars (trimList s.toList)) wn.1 =
             false))) ∧
    parse_llm_score "" = none ∧
    parse_llm_score "   " = none ∧
    parse_llm_score "N/A" = none := by
  refine ⟨?_, by decide, by decide, by decide⟩
  intro s
  by_cases h0 : trimList s.data = []
  · have h0' : (trimList s.data).isEmpty = true := by simp [h0]
    simp [parse_llm_score, String.toList, h0', h0]
  · have h0' : (trimList s.data).isEmpty = false := by
      cases h : (trimList s.data).isEmpty
      · rfl
      · exact absurd (List.isEmpty_iff.mp h) h0
    cases hfd : findDecimal (trimList s.data) with
    | some g =>
      obtain ⟨d1, d2⟩ := g
      simp [parse_llm_score, String.toList, h0', hfd, h0]
    | none =>
      cases hfi : findInteger (trimList s.data) with
      | some d =>
        simp [parse_llm_score, String.toList, h0', hfd, hfi, h0]
      | none =>
        cases hfw : findWritten (lowerChars (trimList s.data))
            written_numbers with
        | some n =>
          have hfalse : ¬(∀ (a : List Char) (b : ℕ),
              (a, b) ∈ written_numbers →
              containsSub (lowerChars (trimList s.data)) a =
                false) := by
            intro hall
            have hW : ∀ wn ∈ written_numbers,
                containsSub (lowerChars (trimList s.data)) wn.1 =
                  false := fun wn hm => hall wn.1 wn.2 hm
            have hnone := (findWritten_eq_none_iff
              (lowerChars (trimList s.data)) written_numbers).mpr hW
            rw [hnone] at hfw
            exact Option.noConfusion hfw
          simp [parse_llm_score, String.toList, h0', hfd, hfi, h0,
            hfw, hfalse]
        | none =>
          have hW := (findWritten_eq_none_iff
            (lowerChars (trimList s.data)) written_numbers).mp hfw
          have hW2 : ∀ (a : List Char) (b : ℕ),
              (a, b) ∈ written_numbers →
              containsSub (lowerChars (trimList s.data)) a = false :=
            fun a b hab => hW (a, b) hab
          simp [parse_llm_score, String.toList, h0', hfd, hfi, h0,
            hfw]
          exact hW2

/-- C8 witness: the failure characterization applied at the concrete
response `"N/A"`. -/
theorem parse_llm_score_failure_characterization_witness :
    parse_llm_score "N/A" = none ↔
      (trimList ("N/A".toList) = [] ∨
        (findDecimal (trimList ("N/A".toList)) = none ∧
         findInteger (trimList ("N/A".toList)) = none ∧
         ∀ wn ∈ written_numbers,
           containsSub (lowerChars (trimList ("N/A".toList))) wn.1 =
             false)) :=
  parse_llm_score_failure_characterization.1 "N/A"

end Veritas
